import Mathlib

/-!
Shallow embedding of the data pipeline of `5-TidyData.ipynb`.

The notebook loads a table of NBA games (one row per game), melts it into a
long per-(game, team) table, computes days of rest per team, pivots the rest
values back to one row per game, joins them onto the game table, computes the
home-win outcome and per-(team, role) win aggregates, and maps each team's
overall win percent back onto the games as strength covariates.

Tables are lists of structures.  A game date is represented at this stage as a
day number (days since an arbitrary epoch), so that the `.dt.days` difference
of two dates is plain subtraction.  Missing values (NaN/NaT) are `Option`.
-/

namespace TidySpec

/-- A row of the wide `games` table produced by the loader: one row per game,
indexed by `(game_id, date)`. -/
structure Game where
  game_id : Nat
  date : Nat
  away_team : String
  away_points : Int
  home_team : String
  home_points : Int
deriving DecidableEq, Repr

/-- A row of the long `tidy` table: melt keeps the id columns `game_id`, `date`,
tags each row with the melted column name (pandas calls the tag column
`variable`; that is a Lean keyword, so the field is named `var`) and puts the
team name in the `team` value column. -/
structure TidyRow where
  game_id : Nat
  date : Nat
  var : String
  team : String
deriving DecidableEq, Repr

/-- The melt row produced for the `away_team` value column of a game. -/
def awayRow (g : Game) : TidyRow :=
  ⟨g.game_id, g.date, "away_team", g.away_team⟩

/-- The melt row produced for the `home_team` value column of a game. -/
def homeRow (g : Game) : TidyRow :=
  ⟨g.game_id, g.date, "home_team", g.home_team⟩

/-- `pd.melt(games.reset_index(), id_vars=['game_id', 'date'],
value_vars=['away_team', 'home_team'], value_name='team')`: one block of rows
per value column, in the order the value columns are listed. -/
def meltTeams (games : List Game) : List TidyRow :=
  games.map awayRow ++ games.map homeRow

/-- The sort key of `.sort_values(['game_id', 'date'])`: lexicographic on
`(game_id, date)`. -/
def tidyLE (a b : TidyRow) : Prop :=
  a.game_id < b.game_id ∨ (a.game_id = b.game_id ∧ a.date ≤ b.date)

instance : DecidableRel tidyLE := fun a b => by
  unfold tidyLE; exact inferInstance

/-- The `tidy` table: melt, then sort by `(game_id, date)`. -/
def tidy (games : List Game) : List TidyRow :=
  List.insertionSort tidyLE (meltTeams games)

/-- The rest value `tidy.groupby('team').date.diff().dt.days - 1` assigns to a
row `r` whose predecessors (in table order) are `pre`: the day difference to
the previous row of the same team, minus one; `none` (NaN) when the team has
no earlier row. -/
def restOfRow (pre : List TidyRow) (r : TidyRow) : Option Int :=
  ((pre.filter fun p => p.team == r.team).getLast?).map
    fun p => (r.date : Int) - (p.date : Int) - 1

/-- Walk the table in order, pairing every row with its rest value; `pre` is
the list of rows already passed. -/
def withRest : List TidyRow → List TidyRow → List (TidyRow × Option Int)
  | _, [] => []
  | pre, r :: rs => (r, restOfRow pre r) :: withRest (pre ++ [r]) rs

/-- The `tidy` table together with its `rest` column
(`tidy['rest'] = tidy.groupby('team').date.diff().dt.days - 1`). -/
def tidyRest (games : List Game) : List (TidyRow × Option Int) :=
  withRest [] (tidy games)

/-! ## Pivot back to one row per game (`by_game`) and join (`df`) -/

/-- The default `pivot_table` aggregation: the mean of the non-null values of
a group (`NaN` values are skipped), `none` when the group has no non-null
value.  The rest column is floating point in pandas; exact rationals stand in
for it here. -/
def meanOpt (vs : List (Option Int)) : Option ℚ :=
  let xs := vs.filterMap id
  if xs.length = 0 then none else some ((xs.sum : ℚ) / (xs.length : ℚ))

/-- The rest values of all tidy rows in the `(game_id, date, variable)` group
given by `gid`, `d`, `v`. -/
def keyRests (games : List Game) (gid d : Nat) (v : String) : List (Option Int) :=
  ((tidyRest games).filter fun p =>
    p.1.game_id == gid && p.1.date == d && p.1.var == v).map Prod.snd

/-- A row of the pivoted `by_game` table: one row per `(game_id, date)` index
entry, with the `away_team`/`home_team` columns of the pivot renamed to
`away_rest`/`home_rest`. -/
structure ByGameRow where
  game_id : Nat
  date : Nat
  away_rest : Option ℚ
  home_rest : Option ℚ

/-- First occurrences, in order, of the elements of a list (used for the group
keys of the pivot: `tidy` is sorted by `(game_id, date)`, so the first
occurrences of its keys list the groups in sorted key order). -/
def firstKeys : List (Nat × Nat) → List (Nat × Nat)
  | [] => []
  | k :: ks => k :: (firstKeys ks).filter fun x => x != k

/-- The pivot row of one `(game_id, date)` index entry: the mean-aggregated
rest of its `away_team` and `home_team` groups; `none` for the whole entry
when both aggregates are null (`pivot_table`'s default `dropna=True` drops
all-NaN aggregate rows before unstacking). -/
def byGameCell (games : List Game) (k : Nat × Nat) : Option ByGameRow :=
  let a := meanOpt (keyRests games k.1 k.2 "away_team")
  let h := meanOpt (keyRests games k.1 k.2 "home_team")
  if a.isNone && h.isNone then none else some ⟨k.1, k.2, a, h⟩

/-- `by_game = pd.pivot_table(tidy, values='rest', index=['game_id', 'date'],
columns='variable')` (columns then renamed to `away_rest`/`home_rest`): group
the rest values by `(game_id, date, variable)`, aggregate each group with the
mean, drop the index entries all of whose aggregated values are null, and
unstack the variable tags into the two columns. -/
def by_game (games : List Game) : List ByGameRow :=
  (firstKeys ((tidy games).map fun r => (r.game_id, r.date))).filterMap
    (byGameCell games)

/-- A row of `df = pd.concat([games, by_game], axis='columns')`: the original
game columns plus the two rest columns. -/
structure DfRow where
  game_id : Nat
  date : Nat
  away_team : String
  away_points : Int
  home_team : String
  home_points : Int
  away_rest : Option ℚ
  home_rest : Option ℚ

/-- The `df` row of one game: its columns plus the rest columns aligned from
`by_game` on the `(game_id, date)` index, null where the index entry is
absent from `by_game`. -/
def dfRowOf (games : List Game) (g : Game) : DfRow :=
  match (by_game games).find? fun r =>
      r.game_id == g.game_id && r.date == g.date with
  | some r => ⟨g.game_id, g.date, g.away_team, g.away_points, g.home_team,
      g.home_points, r.away_rest, r.home_rest⟩
  | none => ⟨g.game_id, g.date, g.away_team, g.away_points, g.home_team,
      g.home_points, none, none⟩

/-- `pd.concat([games, by_game], axis='columns')`: the `by_game` index is a
subset of the `games` index, so the result keeps the `games` rows in order
and aligns the rest columns on the index. -/
def df (games : List Game) : List DfRow :=
  games.map (dfRowOf games)

/-- One entry of `delta = (df['home_rest'] - df['away_rest']).dropna()`:
null arithmetic gives null when either operand is null, and `dropna` then
removes those entries. -/
def restDiff (r : DfRow) : Option ℚ :=
  match r.home_rest, r.away_rest with
  | some h, some a => some (h - a)
  | _, _ => none

/-- The rest-difference series used by the rest-difference bar chart. -/
def delta (games : List Game) : List ℚ :=
  (df games).filterMap restDiff

/-! ## Outcome, win aggregation, strength -/

/-- A row of `df` after `df['home_win'] = df.home_points > df.away_points`. -/
structure DfRowW extends DfRow where
  home_win : Bool

/-- `df` with its `home_win` column. -/
def dfW (games : List Game) : List DfRowW :=
  (df games).map fun r => ⟨r, decide (r.home_points > r.away_points)⟩

/-- A row of the second melt (cell "1.1"): id columns `game_id`, `date`,
`home_win`; the melted column tag in `home_or_away`; the team name in `team`. -/
structure GameTeamRow where
  game_id : Nat
  date : Nat
  home_win : Bool
  home_or_away : String
  team : String
deriving DecidableEq, Repr

/-- The melt row for the `home_team` value column of a `df` row. -/
def meltHome (r : DfRowW) : GameTeamRow :=
  ⟨r.game_id, r.date, r.home_win, "home_team", r.home_team⟩

/-- The melt row for the `away_team` value column of a `df` row. -/
def meltAway (r : DfRowW) : GameTeamRow :=
  ⟨r.game_id, r.date, r.home_win, "away_team", r.away_team⟩

/-- Modelled from the spec: the melt of cell "1.1" whose `id_vars`/`value_vars`
are filled in by `solutions/solutions_tidy.py` (absent from the sources).  Per
the spec ("melts in the win/loss outcome per team per game") and the
notebook's goal table, the id columns are `game_id`, `date`, `home_win` and
the value columns are `home_team`, `away_team` (home rows listed first). -/
def gamesLong (games : List Game) : List GameTeamRow :=
  (dfW games).map meltHome ++ (dfW games).map meltAway

/-- Modelled from the spec: the `win` flag of cell "1.2", assigned by
`solutions/solutions_tidy.py` (absent from the sources).  Per the notebook's
hint, a row's team won iff `home_win` holds and the row is the `home_team`
row, or `home_win` fails and the row is the `away_team` row. -/
def winFlag (r : GameTeamRow) : Bool :=
  (r.home_win && r.home_or_away == "home_team") ||
    (!r.home_win && r.home_or_away == "away_team")

/-- The melted outcome table together with its `win` column. -/
def gamesWithWin (games : List Game) : List (GameTeamRow × Bool) :=
  (gamesLong games).map fun r => (r, winFlag r)

/-- The rows of the `(team, home_or_away)` group `t, v` of the groupby of
cell "1.3". -/
def groupRows (games : List Game) (t v : String) : List (GameTeamRow × Bool) :=
  (gamesWithWin games).filter fun p => p.1.team == t && p.1.home_or_away == v

/-- Modelled from the spec: the `n_wins` aggregate of the `wins` table
(`solutions/solutions_tidy.py`, absent from the sources): the sum of the
boolean `win` column over the group, i.e. the number of `true` entries. -/
def n_wins (games : List Game) (t v : String) : Nat :=
  ((groupRows games t v).filter fun p => p.2).length

/-- Modelled from the spec: the `n_games` aggregate of the `wins` table: the
count of the group's rows. -/
def n_games (games : List Game) (t v : String) : Nat :=
  (groupRows games t v).length

/-- Modelled from the spec: the `win_pct` aggregate of the `wins` table: the
mean of the boolean `win` column over the group. -/
def win_pct (games : List Game) (t v : String) : ℚ :=
  (((groupRows games t v).map fun p => if p.2 then (1 : ℚ) else 0).sum) /
    (n_games games t v : ℚ)

/-- Modelled from the spec: `win_percent` (step 2, `solutions/solutions_tidy.py`
absent from the sources): each team's overall win percentage, its total wins
(home and away combined) divided by its total games played. -/
def win_percent (games : List Game) (t : String) : ℚ :=
  ((n_wins games t "home_team" + n_wins games t "away_team" : ℕ) : ℚ) /
    ((n_games games t "home_team" + n_games games t "away_team" : ℕ) : ℚ)

/-- Modelled from the spec: `df['home_strength']`, the home team's
`win_percent` looked up via `Series.map` (step 3, solutions file absent from
the sources). -/
def home_strength (games : List Game) (r : DfRow) : ℚ :=
  win_percent games r.home_team

/-- Modelled from the spec: `df['away_strength']`, the away team's
`win_percent` looked up via `Series.map`. -/
def away_strength (games : List Game) (r : DfRow) : ℚ :=
  win_percent games r.away_team

/-- The complete cases used by the logistic regression
`home_win ~ home_strength + away_strength + home_rest + away_rest`:
`statsmodels` drops rows with a null predictor, and only the two rest columns
can be null (the strengths are total lookups and `home_win` is boolean). -/
def modelRows (games : List Game) : List DfRowW :=
  (dfW games).filter fun r => r.away_rest.isSome && r.home_rest.isSome

/-- The home-row of the outcome melt together with its `win` flag, as a
function of the original game (the composition the pipeline applies). -/
def homePairF (games : List Game) (x : Game) : GameTeamRow × Bool :=
  (meltHome ⟨dfRowOf games x,
     decide ((dfRowOf games x).home_points > (dfRowOf games x).away_points)⟩,
   winFlag (meltHome ⟨dfRowOf games x,
     decide ((dfRowOf games x).home_points > (dfRowOf games x).away_points)⟩))

/-- The away-row of the outcome melt together with its `win` flag. -/
def awayPairF (games : List Game) (x : Game) : GameTeamRow × Bool :=
  (meltAway ⟨dfRowOf games x,
     decide ((dfRowOf games x).home_points > (dfRowOf games x).away_points)⟩,
   winFlag (meltAway ⟨dfRowOf games x,
     decide ((dfRowOf games x).home_points > (dfRowOf games x).away_points)⟩))

/-! ## The loader

`games = (pd.read_csv("data/games.csv").rename(columns=column_names)
  .dropna(thresh=4)[['date', 'away_team', 'away_points', 'home_team',
  'home_points']].assign(date=lambda x: pd.to_datetime(x['date'],
  format='%a, %b %d, %Y')).set_index('date', append=True)
  .rename_axis(["game_id", "date"]).sort_index())`

A raw CSV row carries the eight renamed columns, each possibly null; the row's
position in the CSV body is the `RangeIndex` label that `set_index(...,
append=True)` keeps as the `game_id` level.  Dates here are parsed into
`(year, month, day)` triples. -/

/-- A row of `pd.read_csv("data/games.csv")` after the `rename`. -/
structure RawRow where
  date : Option String
  start : Option String
  box : Option String
  away_team : Option String
  away_points : Option Int
  home_team : Option String
  home_points : Option Int
  n_ot : Option String
deriving DecidableEq, Repr

/-- The number of non-null cells of a raw row, compared with 4 by
`dropna(thresh=4)`. -/
def nonNullCount (r : RawRow) : Nat :=
  (if r.date.isSome then 1 else 0) + (if r.start.isSome then 1 else 0) +
  (if r.box.isSome then 1 else 0) + (if r.away_team.isSome then 1 else 0) +
  (if r.away_points.isSome then 1 else 0) + (if r.home_team.isSome then 1 else 0) +
  (if r.home_points.isSome then 1 else 0) + (if r.n_ot.isSome then 1 else 0)

/-- Month abbreviations accepted by the `%b` directive. -/
def monthNum (s : String) : Option Nat :=
  if s == "Jan" then some 1 else if s == "Feb" then some 2
  else if s == "Mar" then some 3 else if s == "Apr" then some 4
  else if s == "May" then some 5 else if s == "Jun" then some 6
  else if s == "Jul" then some 7 else if s == "Aug" then some 8
  else if s == "Sep" then some 9 else if s == "Oct" then some 10
  else if s == "Nov" then some 11 else if s == "Dec" then some 12
  else none

/-- Weekday abbreviations accepted by the `%a` directive. -/
def weekdayOk (s : String) : Bool :=
  s == "Mon" || s == "Tue" || s == "Wed" || s == "Thu" ||
    s == "Fri" || s == "Sat" || s == "Sun"

/-- Days in a month (with leap years), bounding the `%d` field. -/
def daysInMonth (y m : Nat) : Nat :=
  if m == 2 then
    (if (y % 4 == 0 && y % 100 != 0) || y % 400 == 0 then 29 else 28)
  else if m == 4 || m == 6 || m == 9 || m == 11 then 30 else 31

/-- Split a character list on the separator `", "` (the splitting of
`s.splitOn ", "`, carried out on the character list so that it is
structurally recursive); `cur` is the field being read. -/
def splitCS (cur : List Char) : List Char → List (List Char)
  | [] => [cur]
  | ',' :: ' ' :: rest => cur :: splitCS [] rest
  | c :: rest => splitCS (cur ++ [c]) rest

/-- Split a character list on a single space (the splitting of
`md.splitOn " "`). -/
def splitSp (cur : List Char) : List Char → List (List Char)
  | [] => [cur]
  | ' ' :: rest => cur :: splitSp [] rest
  | c :: rest => splitSp (cur ++ [c]) rest

/-- The numeric value of a list of decimal digits. -/
def digitsVal (cs : List Char) : Nat :=
  cs.foldl (fun n c => n * 10 + (c.toNat - 48)) 0

/-- Read a nonempty all-digit character list as a number (the reading of the
`%d` and `%Y` fields). -/
def digitsToNat (cs : List Char) : Option Nat :=
  if !cs.isEmpty && cs.all Char.isDigit then some (digitsVal cs) else none

/-- `pd.to_datetime(s, format='%a, %b %d, %Y')` on one string such as
`"Tue, Oct 27, 2015"`: weekday abbreviation, comma, month abbreviation,
space, 1–2 digit day, comma, 4 digit year; `none` when the string does not
match the format. -/
def parseDate (s : String) : Option (Nat × Nat × Nat) :=
  match splitCS [] s.data with
  | [wd, md, y] =>
    match splitSp [] md with
    | [mo, d] =>
      match monthNum (String.mk mo), digitsToNat d, digitsToNat y with
      | some m, some dn, some yn =>
        if weekdayOk (String.mk wd) && 1 ≤ d.length && d.length ≤ 2 &&
            y.length == 4 && 1 ≤ dn && dn ≤ daysInMonth yn m then
          some (yn, m, dn)
        else none
      | _, _, _ => none
    | _ => none
  | _ => none

/-- A row of the loaded `games` table: the synthetic `game_id` index level
(the row's original CSV position), the parsed date (null when the raw date
cell was null) and the four kept value columns. -/
structure LoadedRow where
  game_id : Nat
  date : Option (Nat × Nat × Nat)
  away_team : Option String
  away_points : Option Int
  home_team : Option String
  home_points : Option Int
deriving DecidableEq, Repr

/-- Select the kept columns of one surviving raw row at position `i` and parse
its date; `none` when the date cell is a string that does not match the format
(in which case `to_datetime` raises and the whole load fails). -/
def loadRow (i : Nat) (r : RawRow) : Option LoadedRow :=
  match r.date with
  | none => some ⟨i, none, r.away_team, r.away_points, r.home_team, r.home_points⟩
  | some s => (parseDate s).map fun d =>
      ⟨i, some d, r.away_team, r.away_points, r.home_team, r.home_points⟩

/-- The sort key of the date level of the index: `NaT` sorts after every
date, and dates compare chronologically (years below 10000, as produced by
the 4-digit `%Y` field). -/
def dateKeyN : Option (Nat × Nat × Nat) → Nat
  | none => 100000000
  | some (y, m, d) => y * 10000 + m * 100 + d

/-- The `sort_index()` order on the `(game_id, date)` index. -/
def loadedLE (a b : LoadedRow) : Prop :=
  a.game_id < b.game_id ∨
    (a.game_id = b.game_id ∧ dateKeyN a.date ≤ dateKeyN b.date)

instance : DecidableRel loadedLE := fun a b => by
  unfold loadedLE; exact inferInstance

/-- Process the surviving rows in order; a single date-parse failure fails
the whole load (`to_datetime` raises on a string not matching the format). -/
def parseAll : List (Nat × RawRow) → Option (List LoadedRow)
  | [] => some []
  | p :: ps => do
    let row ← loadRow p.1 p.2
    let rest ← parseAll ps
    pure (row :: rest)

/-- The loader pipeline: enumerate the CSV body rows (the `RangeIndex`),
drop the rows with fewer than 4 non-null cells, keep the five columns while
parsing the date strings (failure of any parse fails the load, as
`to_datetime` raises), and sort by the `(game_id, date)` index. -/
def load (raw : List RawRow) : Option (List LoadedRow) :=
  (parseAll (raw.enum.filter fun p => 4 ≤ nonNullCount p.2)).map fun l =>
    List.insertionSort loadedLE l

/-- The reference result of the loader, stated from the spec's words: the
surviving rows in CSV order, each reduced to the kept columns with its date
parsed and its original position as `game_id`. -/
def keptRows (raw : List RawRow) : List LoadedRow :=
  (raw.enum.filter fun p => 4 ≤ nonNullCount p.2).filterMap fun p =>
    loadRow p.1 p.2

/-! ## Reference quantities the claims compare against -/

/-- The dates of the table are nondecreasing in table order (true of the
dataset: the CSV lists the games of the season chronologically, so sorting by
`(game_id, date)` is also chronological). -/
def datesSorted : List TidyRow → Bool
  | [] => true
  | [_] => true
  | a :: b :: l => decide (a.date ≤ b.date) && datesSorted (b :: l)

/-- The number of games a team played in a role: its games as home team when
`v = "home_team"`, else its games as away team. -/
def roleGames (games : List Game) (t v : String) : Nat :=
  if v = "home_team" then (games.filter fun g => g.home_team == t).length
  else (games.filter fun g => g.away_team == t).length

/-- The number of games a team won in a role: as home team the games it
hosted and won (home points strictly greater), as away team the games it
visited whose home team did not win. -/
def roleWins (games : List Game) (t v : String) : Nat :=
  if v = "home_team" then
    (games.filter fun g => g.home_team == t && decide (g.away_points < g.home_points)).length
  else
    (games.filter fun g => g.away_team == t && !decide (g.away_points < g.home_points)).length

/-- A team's total number of games played, home and away combined. -/
def total_games (games : List Game) (t : String) : Nat :=
  roleGames games t "home_team" + roleGames games t "away_team"

/-- A team's total number of wins, home and away combined. -/
def total_wins (games : List Game) (t : String) : Nat :=
  roleWins games t "home_team" + roleWins games t "away_team"

/-! ## Concrete data used by the witnesses -/

/-- A small season: three teams, four games, one row per game.  Dates are day
numbers.  Game 1 is the first game of both its teams. -/
def gsEx : List Game :=
  [⟨0, 10, "A", 90, "B", 100⟩,
   ⟨1, 12, "B", 105, "C", 95⟩,
   ⟨2, 13, "C", 99, "A", 98⟩,
   ⟨3, 15, "A", 101, "B", 97⟩]

/-- A one-game season: both teams are playing their first game. -/
def gs1 : List Game :=
  [⟨0, 100, "A", 90, "B", 95⟩]

/-- Raw CSV rows: two game rows around one of the junk rows (a repeated
header) that `dropna(thresh=4)` removes. -/
def rawEx : List RawRow :=
  [⟨some "Tue, Oct 27, 2015", some "8:00 pm", none, some "Detroit Pistons",
    some 106, some "Atlanta Hawks", some 94, none⟩,
   ⟨some "Date", none, none, none, none, none, none, none⟩,
   ⟨some "Wed, Oct 28, 2015", some "7:30 pm", none, some "Chicago Bulls",
    some 97, some "Brooklyn Nets", some 100, none⟩]

/-! ## General list lemmas -/

theorem withRest_append (pre xs ys : List TidyRow) :
    withRest pre (xs ++ ys) = withRest pre xs ++ withRest (pre ++ xs) ys := by
  induction xs generalizing pre with
  | nil => simp [withRest]
  | cons a t ih => simp [withRest, ih]

theorem withRest_map_fst (pre l : List TidyRow) :
    (withRest pre l).map Prod.fst = l := by
  induction l generalizing pre with
  | nil => rfl
  | cons a t ih => simp [withRest, ih]

theorem withRest_length (pre l : List TidyRow) :
    (withRest pre l).length = l.length := by
  have := congrArg List.length (withRest_map_fst pre l)
  simpa using this

theorem game_id_inj {games : List Game}
    (hnd : (games.map Game.game_id).Nodup) {x g : Game}
    (hx : x ∈ games) (hg : g ∈ games) (h : x.game_id = g.game_id) : x = g :=
  List.inj_on_of_nodup_map hnd hx hg h

theorem filter_map_unique {β : Type} (f : Game → β) (p : β → Bool)
    {games : List Game} {g : Game}
    (hnd : (games.map Game.game_id).Nodup) (hg : g ∈ games)
    (hp : ∀ x ∈ games, p (f x) = (x.game_id == g.game_id)) :
    (games.map f).filter p = [f g] := by
  induction games with
  | nil => cases hg
  | cons a t ih =>
    simp only [List.map_cons, List.nodup_cons, List.mem_map] at hnd
    rcases hnd with ⟨hna, hndt⟩
    simp only [List.map_cons, List.filter_cons]
    rcases List.mem_cons.mp hg with rfl | hgt
    · rw [hp g (List.mem_cons_self g t)]
      simp only [beq_self_eq_true, if_pos]
      have : (t.map f).filter p = [] := by
        rw [List.filter_eq_nil_iff]
        intro b hb
        rcases List.mem_map.mp hb with ⟨x, hx, rfl⟩
        rw [hp x (List.mem_cons_of_mem _ hx)]
        simp only [beq_iff_eq]
        intro hxa
        exact hna ⟨x, hx, hxa⟩
      simp [this]
    · have hne : (a.game_id == g.game_id) = false := by
        simp only [beq_eq_false_iff_ne, ne_eq]
        intro hag
        exact hna ⟨g, hgt, hag.symm⟩
      rw [hp a (List.mem_cons_self a t), hne]
      simp only [Bool.false_eq_true, if_neg, not_false_eq_true]
      exact ih hndt hgt fun x hx => hp x (List.mem_cons_of_mem _ hx)

theorem filter_eq_singleton {κ : Type} {l : List κ} {p : κ → Bool} {x : κ}
    (hnd : l.Nodup) (hx : x ∈ l) (hpx : p x = true)
    (huniq : ∀ y ∈ l, p y = true → y = x) :
    l.filter p = [x] := by
  induction l with
  | nil => cases hx
  | cons a t ih =>
    rcases List.nodup_cons.mp hnd with ⟨hna, hndt⟩
    simp only [List.filter_cons]
    rcases List.mem_cons.mp hx with rfl | hxt
    · rw [if_pos hpx]
      have : t.filter p = [] := by
        rw [List.filter_eq_nil_iff]
        intro b hb hpb
        exact hna ((huniq b (List.mem_cons_of_mem _ hb) hpb) ▸ hb)
      rw [this]
    · have hpa : p a = false := by
        rcases h : p a with _ | _
        · rfl
        · exact absurd ((huniq a (List.mem_cons_self a t) h) ▸ hxt) hna
      simp only [hpa, Bool.false_eq_true, if_neg, not_false_eq_true]
      exact ih hndt hxt fun y hy => huniq y (List.mem_cons_of_mem _ hy)

theorem filterMap_filter_comm {κ β : Type} {l : List κ} (f : κ → Option β)
    (p : β → Bool) (q : κ → Bool)
    (h : ∀ k ∈ l, ∀ b ∈ f k, p b = q k) :
    (l.filterMap f).filter p = (l.filter q).filterMap f := by
  induction l with
  | nil => rfl
  | cons a t ih =>
    have ihh := ih fun k hk => h k (List.mem_cons_of_mem _ hk)
    cases hfa : f a with
    | none =>
      rcases hqa : q a with _ | _ <;>
        simp [List.filterMap_cons, List.filter_cons, hfa, hqa, ihh]
    | some b =>
      have hpb : p b = q a := h a (List.mem_cons_self a t) b (by rw [hfa]; rfl)
      rcases hqa : q a with _ | _ <;>
        simp [List.filterMap_cons, List.filter_cons, hfa, hqa, hpb ▸ hqa ▸ hpb, ihh] <;>
        simp [hpb, hqa, ihh]

theorem find?_eq_of_filter {β : Type} {l : List β} {p q : β → Bool} {x : β}
    (himp : ∀ b ∈ l, q b = true → p b = true)
    (hf : l.filter p = [x]) (hqx : q x = true) :
    l.find? q = some x := by
  induction l with
  | nil => simp at hf
  | cons a t ih =>
    simp only [List.filter_cons] at hf
    by_cases hpa : p a = true
    · rw [if_pos hpa] at hf
      rcases List.cons_eq_cons.mp hf with ⟨rfl, hft⟩
      rcases hqa : q a with _ | _
      · exfalso
        have : ∀ b ∈ t, ¬ q b = true := by
          intro b hb hqb
          have hpb := himp b (List.mem_cons_of_mem _ hb) hqb
          have : b ∈ t.filter p := List.mem_filter.mpr ⟨hb, hpb⟩
          rw [hft] at this
          cases this
        exact absurd hqx (by simpa using hqa)
      · simp [List.find?_cons, hqa]
    · rw [if_neg hpa] at hf
      have hqa : q a = false := by
        rcases h : q a with _ | _
        · rfl
        · exact absurd (himp a (List.mem_cons_self a t) h) hpa
      simp only [List.find?_cons, hqa]
      exact ih (fun b hb => himp b (List.mem_cons_of_mem _ hb)) hf

theorem find?_none_of_filter {β : Type} {l : List β} {p q : β → Bool}
    (himp : ∀ b ∈ l, q b = true → p b = true)
    (hf : l.filter p = []) : l.find? q = none := by
  rw [List.find?_eq_none]
  intro b hb hqb
  have hpb := himp b hb hqb
  have : b ∈ l.filter p := List.mem_filter.mpr ⟨hb, hpb⟩
  rw [hf] at this
  cases this

theorem mem_firstKeys {l : List (Nat × Nat)} {k : Nat × Nat} :
    k ∈ firstKeys l ↔ k ∈ l := by
  induction l with
  | nil => simp [firstKeys]
  | cons a t ih =>
    by_cases hka : k = a
    · subst hka
      simp [firstKeys]
    · simp only [firstKeys, List.mem_cons, List.mem_filter, ih, bne_iff_ne,
        ne_eq]
      tauto

theorem nodup_firstKeys (l : List (Nat × Nat)) : (firstKeys l).Nodup := by
  induction l with
  | nil => simp [firstKeys]
  | cons a t ih =>
    rw [firstKeys, List.nodup_cons]
    refine ⟨fun hmem => ?_, ih.filter _⟩
    have := (List.mem_filter.mp hmem).2
    simp at this

/-! ## Structure of the melted table -/

theorem mem_meltTeams {games : List Game} {r : TidyRow} :
    r ∈ meltTeams games ↔
      ∃ x ∈ games, r = awayRow x ∨ r = homeRow x := by
  simp only [meltTeams, List.mem_append, List.mem_map]
  constructor
  · rintro (⟨x, hx, rfl⟩ | ⟨x, hx, rfl⟩)
    · exact ⟨x, hx, Or.inl rfl⟩
    · exact ⟨x, hx, Or.inr rfl⟩
  · rintro ⟨x, hx, rfl | rfl⟩
    · exact Or.inl ⟨x, hx, rfl⟩
    · exact Or.inr ⟨x, hx, rfl⟩

theorem mem_tidy {games : List Game} {r : TidyRow} :
    r ∈ tidy games ↔ r ∈ meltTeams games := by
  unfold tidy
  exact List.Perm.mem_iff (List.perm_insertionSort _ _)

theorem tidy_perm (games : List Game) : List.Perm (tidy games) (meltTeams games) :=
  List.perm_insertionSort _ _

theorem meltTeams_filter_id {games : List Game} {g : Game}
    (hnd : (games.map Game.game_id).Nodup) (hg : g ∈ games) :
    (meltTeams games).filter (fun r => r.game_id == g.game_id) =
      [awayRow g, homeRow g] := by
  unfold meltTeams
  rw [List.filter_append,
    filter_map_unique awayRow _ hnd hg (fun x _ => rfl),
    filter_map_unique homeRow _ hnd hg (fun x _ => rfl)]
  rfl

theorem tidy_filter_id {games : List Game} {g : Game}
    (hnd : (games.map Game.game_id).Nodup) (hg : g ∈ games) :
    List.Perm ((tidy games).filter fun r => r.game_id == g.game_id)
      [awayRow g, homeRow g] := by
  have := (tidy_perm games).filter (fun r => r.game_id == g.game_id)
  rwa [meltTeams_filter_id hnd hg] at this

/-- The predicate selecting a `(game_id, date, variable)` pivot group. -/
def keyP (gid d : Nat) (v : String) (r : TidyRow) : Bool :=
  r.game_id == gid && r.date == d && r.var == v

theorem tidy_filter_key_away {games : List Game} {g : Game}
    (hnd : (games.map Game.game_id).Nodup) (hg : g ∈ games) :
    (tidy games).filter (keyP g.game_id g.date "away_team") = [awayRow g] := by
  have hp : ∀ x ∈ games,
      keyP g.game_id g.date "away_team" (awayRow x) = (x.game_id == g.game_id) := by
    intro x hx
    show (x.game_id == g.game_id && x.date == g.date &&
      ("away_team" == "away_team")) = _
    rcases hid : x.game_id == g.game_id with _ | _
    · simp
    · have hxg : x = g := game_id_inj hnd hx hg (by simpa using hid)
      subst hxg
      simp
  have hnil : (games.map homeRow).filter (keyP g.game_id g.date "away_team") = [] := by
    rw [List.filter_eq_nil_iff]
    intro b hb
    rcases List.mem_map.mp hb with ⟨x, hx, rfl⟩
    simp [keyP, homeRow]
  refine List.perm_singleton.mp ?_
  refine ((tidy_perm games).filter _).trans ?_
  unfold meltTeams
  rw [List.filter_append, filter_map_unique awayRow _ hnd hg hp, hnil]
  simp

theorem tidy_filter_key_home {games : List Game} {g : Game}
    (hnd : (games.map Game.game_id).Nodup) (hg : g ∈ games) :
    (tidy games).filter (keyP g.game_id g.date "home_team") = [homeRow g] := by
  have hp : ∀ x ∈ games,
      keyP g.game_id g.date "home_team" (homeRow x) = (x.game_id == g.game_id) := by
    intro x hx
    show (x.game_id == g.game_id && x.date == g.date &&
      ("home_team" == "home_team")) = _
    rcases hid : x.game_id == g.game_id with _ | _
    · simp
    · have hxg : x = g := game_id_inj hnd hx hg (by simpa using hid)
      subst hxg
      simp
  have hnil : (games.map awayRow).filter (keyP g.game_id g.date "home_team") = [] := by
    rw [List.filter_eq_nil_iff]
    intro b hb
    rcases List.mem_map.mp hb with ⟨x, hx, rfl⟩
    simp [keyP, awayRow]
  refine List.perm_singleton.mp ?_
  refine ((tidy_perm games).filter _).trans ?_
  unfold meltTeams
  rw [List.filter_append, filter_map_unique homeRow _ hnd hg hp, hnil]
  simp

/-! ## Structure of the pivot and the join -/

theorem tidyRest_filter_key {games : List Game} {r : TidyRow}
    {gid d : Nat} {v : String}
    (hfilter : (tidy games).filter (keyP gid d v) = [r]) :
    ∃ o, (tidyRest games).filter (fun x => keyP gid d v x.1) = [(r, o)] := by
  have hmap : ((tidyRest games).filter fun x => keyP gid d v x.1).map Prod.fst
      = [r] := by
    have h1 : ((tidyRest games).map Prod.fst).filter (keyP gid d v)
        = ((tidyRest games).filter fun x => keyP gid d v x.1).map Prod.fst := by
      rw [List.filter_map]
      rfl
    rw [← h1, tidyRest, withRest_map_fst, hfilter]
  rcases hlf : (tidyRest games).filter fun x => keyP gid d v x.1 with _ | ⟨a, t⟩
  · rw [hlf] at hmap
    cases hmap
  · rw [hlf] at hmap
    cases t with
    | nil =>
      simp only [List.map_cons, List.map_nil, List.cons_eq_cons] at hmap
      exact ⟨a.2, by rw [hlf, ← hmap.1]⟩
    | cons b t2 =>
      simp at hmap

theorem keyRests_eq {games : List Game} {r : TidyRow} {o : Option Int}
    {gid d : Nat} {v : String}
    (h : (tidyRest games).filter (fun x => keyP gid d v x.1) = [(r, o)]) :
    keyRests games gid d v = [o] := by
  unfold keyRests
  have : (fun p : TidyRow × Option Int =>
      p.1.game_id == gid && p.1.date == d && p.1.var == v) =
      (fun x : TidyRow × Option Int => keyP gid d v x.1) := rfl
  rw [this, h]
  rfl

theorem byGameCell_game_id {games : List Game} {k : Nat × Nat} {b : ByGameRow}
    (h : byGameCell games k = some b) : b.game_id = k.1 ∧ b.date = k.2 := by
  simp only [byGameCell] at h
  split at h
  · cases h
  · cases h
    exact ⟨rfl, rfl⟩

theorem byGameCell_eq_some {games : List Game} {k : Nat × Nat} {b : ByGameRow}
    (h : byGameCell games k = some b) :
    b = ⟨k.1, k.2, meanOpt (keyRests games k.1 k.2 "away_team"),
      meanOpt (keyRests games k.1 k.2 "home_team")⟩ := by
  simp only [byGameCell] at h
  split at h
  · cases h
  · cases h
    rfl

theorem byGameCell_eq_none {games : List Game} {k : Nat × Nat}
    (h : byGameCell games k = none) :
    meanOpt (keyRests games k.1 k.2 "away_team") = none ∧
    meanOpt (keyRests games k.1 k.2 "home_team") = none := by
  simp only [byGameCell] at h
  split at h
  · next hcond =>
    rcases Bool.and_eq_true_iff.mp hcond with ⟨h1, h2⟩
    exact ⟨Option.isNone_iff_eq_none.mp h1, Option.isNone_iff_eq_none.mp h2⟩
  · cases h

theorem keys_filter_eq {games : List Game} {g : Game}
    (hnd : (games.map Game.game_id).Nodup) (hg : g ∈ games) :
    (firstKeys ((tidy games).map fun r => (r.game_id, r.date))).filter
      (fun k => k.1 == g.game_id) = [(g.game_id, g.date)] := by
  apply filter_eq_singleton (nodup_firstKeys _)
  · rw [mem_firstKeys]
    refine List.mem_map.mpr ⟨awayRow g, ?_, rfl⟩
    exact mem_tidy.mpr (mem_meltTeams.mpr ⟨g, hg, Or.inl rfl⟩)
  · exact beq_self_eq_true _
  · intro y hy hpy
    rcases List.mem_map.mp (mem_firstKeys.mp hy) with ⟨tr, htr, rfl⟩
    rcases mem_meltTeams.mp (mem_tidy.mp htr) with ⟨x, hx, rfl | rfl⟩
    all_goals
      have hxg : x = g := game_id_inj hnd hx hg (by simpa using hpy)
      subst hxg
      rfl

theorem by_game_filter {games : List Game} {g : Game}
    (hnd : (games.map Game.game_id).Nodup) (hg : g ∈ games) :
    (by_game games).filter (fun r => r.game_id == g.game_id) =
      (byGameCell games (g.game_id, g.date)).toList := by
  unfold by_game
  rw [filterMap_filter_comm (byGameCell games) _ (fun k => k.1 == g.game_id)
    (fun k _ b hb => by rw [(byGameCell_game_id hb).1])]
  rw [keys_filter_eq hnd hg]
  cases h : byGameCell games (g.game_id, g.date) <;>
    simp [List.filterMap_cons, h]

theorem dfRowOf_fields (games : List Game) (x : Game) :
    (dfRowOf games x).game_id = x.game_id ∧
    (dfRowOf games x).date = x.date ∧
    (dfRowOf games x).away_team = x.away_team ∧
    (dfRowOf games x).away_points = x.away_points ∧
    (dfRowOf games x).home_team = x.home_team ∧
    (dfRowOf games x).home_points = x.home_points := by
  unfold dfRowOf
  split <;> exact ⟨rfl, rfl, rfl, rfl, rfl, rfl⟩

theorem dfRowOf_rests {games : List Game} {g : Game}
    (hnd : (games.map Game.game_id).Nodup) (hg : g ∈ games) :
    (dfRowOf games g).away_rest =
      meanOpt (keyRests games g.game_id g.date "away_team") ∧
    (dfRowOf games g).home_rest =
      meanOpt (keyRests games g.game_id g.date "home_team") := by
  have hbf := by_game_filter hnd hg
  unfold dfRowOf
  cases hcell : byGameCell games (g.game_id, g.date) with
  | none =>
    rw [hcell] at hbf
    have hfind : (by_game games).find?
        (fun r => r.game_id == g.game_id && r.date == g.date) = none := by
      refine find?_none_of_filter (p := fun r => r.game_id == g.game_id)
        (fun b _ hqb => ?_) hbf
      exact (Bool.and_eq_true_iff.mp hqb).1
    rw [hfind]
    rcases byGameCell_eq_none hcell with ⟨h1, h2⟩
    exact ⟨h1.symm, h2.symm⟩
  | some b =>
    rw [hcell] at hbf
    have hb := byGameCell_eq_some hcell
    have hfind : (by_game games).find?
        (fun r => r.game_id == g.game_id && r.date == g.date) = some b := by
      refine find?_eq_of_filter (p := fun r => r.game_id == g.game_id)
        (fun c _ hqc => (Bool.and_eq_true_iff.mp hqc).1) hbf ?_
      subst hb
      simp
    rw [hfind]
    subst hb
    exact ⟨rfl, rfl⟩

theorem df_filter {games : List Game} {g : Game}
    (hnd : (games.map Game.game_id).Nodup) (hg : g ∈ games) :
    (df games).filter (fun r => r.game_id == g.game_id) = [dfRowOf games g] := by
  unfold df
  exact filter_map_unique (dfRowOf games) _ hnd hg
    (fun x _ => by rw [(dfRowOf_fields games x).1])

/-! ## Chronological order and the rest column -/

theorem datesSorted_pairwise :
    ∀ {l : List TidyRow}, datesSorted l = true →
      l.Pairwise fun a b => a.date ≤ b.date
  | [], _ => .nil
  | [a], _ => by simp
  | a :: b :: t, h => by
    rw [datesSorted, Bool.and_eq_true, decide_eq_true_eq] at h
    have ht := datesSorted_pairwise h.2
    refine List.Pairwise.cons (fun y hy => ?_) ht
    rcases List.mem_cons.mp hy with rfl | hyt
    · exact h.1
    · have := List.rel_of_pairwise_cons ht hyt
      omega

theorem mem_of_getLast? {l : List TidyRow} {x : TidyRow}
    (h : l.getLast? = some x) : x ∈ l := by
  have hx : x ∈ l.getLast? := by rw [h]; rfl
  rcases List.mem_getLast?_eq_getLast hx with ⟨hne, rfl⟩
  exact List.getLast_mem hne

theorem getLast?_max :
    ∀ {l : List TidyRow} {x : TidyRow},
      l.Pairwise (fun a b => a.date ≤ b.date) → l.getLast? = some x →
      ∀ y ∈ l, y.date ≤ x.date := by
  intro l
  induction l with
  | nil => intro x _ h; cases h
  | cons a t ih =>
    intro x hp hl y hy
    cases t with
    | nil =>
      simp only [List.getLast?_singleton, Option.some.injEq] at hl
      subst hl
      simp only [List.mem_singleton] at hy
      subst hy
      exact le_refl _
    | cons b t2 =>
      rw [List.getLast?_cons_cons] at hl
      rcases List.mem_cons.mp hy with rfl | hyt
      · have hx : x ∈ b :: t2 := mem_of_getLast? hl
        exact List.rel_of_pairwise_cons hp hx
      · exact ih (List.Pairwise.of_cons hp) hl y hyt

theorem restOfRow_of_first {pre : List TidyRow} {r : TidyRow}
    (h : pre.filter (fun p => p.team == r.team) = []) :
    restOfRow pre r = none := by
  simp [restOfRow, h]

theorem tidyRest_split {games : List Game} {pre suf : List TidyRow}
    {r : TidyRow} (hsplit : tidy games = pre ++ r :: suf) :
    tidyRest games =
      withRest [] pre ++ (r, restOfRow pre r) :: withRest (pre ++ [r]) suf := by
  rw [tidyRest, hsplit, withRest_append]
  rfl

theorem tidyRest_at_split {games : List Game} {pre suf : List TidyRow}
    {r : TidyRow} (hsplit : tidy games = pre ++ r :: suf) :
    (tidyRest games)[pre.length]? = some (r, restOfRow pre r) := by
  rw [tidyRest_split hsplit]
  rw [List.getElem?_append_right (by rw [withRest_length])]
  rw [withRest_length]
  simp

/-! ## The claims -/

/-- C1: for every team and every game of that team after its first game of
the season, the computed rest value of that (team, game) row equals the
number of calendar days between the game's date and the date of the team's
immediately preceding game, minus one.  The row at position `pre.length` of
the tidy table (split as `pre ++ r :: suf`) carries rest
`r.date - d - 1`, where `d` is the date of the team's latest earlier row —
its immediately preceding game, the table being chronologically sorted. -/
theorem rest_days_gap (games : List Game) (pre suf : List TidyRow) (r : TidyRow)
    (hsorted : datesSorted (tidy games) = true)
    (hsplit : tidy games = pre ++ r :: suf)
    (hprev : pre.filter (fun p => p.team == r.team) ≠ []) :
    ∃ d : Nat,
      (tidyRest games)[pre.length]? =
        some (r, some ((r.date : Int) - (d : Int) - 1)) ∧
      (∃ q ∈ pre, q.team = r.team ∧ q.date = d) ∧
      (∀ q ∈ pre, q.team = r.team → q.date ≤ d) := by
  rcases hlast : (pre.filter fun p => p.team == r.team).getLast? with _ | q0
  · rw [List.getLast?_eq_none_iff] at hlast
    exact absurd hlast hprev
  have hpair : pre.Pairwise fun a b => a.date ≤ b.date := by
    have hall : (tidy games).Pairwise fun a b => a.date ≤ b.date :=
      datesSorted_pairwise hsorted
    rw [hsplit] at hall
    exact hall.sublist (List.sublist_append_left pre (r :: suf))
  refine ⟨q0.date, ?_, ?_, ?_⟩
  · rw [tidyRest_at_split hsplit]
    simp [restOfRow, hlast]
  · have hq0 : q0 ∈ pre.filter fun p => p.team == r.team :=
      mem_of_getLast? hlast
    rcases List.mem_filter.mp hq0 with ⟨hmem, hteam⟩
    exact ⟨q0, hmem, by simpa using hteam, rfl⟩
  · intro q hq hteam
    refine getLast?_max (hpair.filter _) hlast q ?_
    exact List.mem_filter.mpr ⟨hq, by simpa using hteam⟩

/-- Witness for C1 at a concrete season: the sixth tidy row is team A's home
game on day 13; A's previous game was on day 10, so its rest is 2. -/
theorem rest_days_gap_witness :
    datesSorted (tidy gsEx) = true ∧
    tidy gsEx =
      [⟨0, 10, "away_team", "A"⟩, ⟨0, 10, "home_team", "B"⟩,
       ⟨1, 12, "away_team", "B"⟩, ⟨1, 12, "home_team", "C"⟩,
       ⟨2, 13, "away_team", "C"⟩] ++ ⟨2, 13, "home_team", "A"⟩ ::
        [⟨3, 15, "away_team", "A"⟩, ⟨3, 15, "home_team", "B"⟩] ∧
    (∃ d : Nat,
      (tidyRest gsEx)[([⟨0, 10, "away_team", "A"⟩, ⟨0, 10, "home_team", "B"⟩,
        ⟨1, 12, "away_team", "B"⟩, ⟨1, 12, "home_team", "C"⟩,
        ⟨2, 13, "away_team", "C"⟩] : List TidyRow).length]? =
          some (⟨2, 13, "home_team", "A"⟩,
            some (((13 : Nat) : Int) - (d : Int) - 1)) ∧
      (∃ q ∈ ([⟨0, 10, "away_team", "A"⟩, ⟨0, 10, "home_team", "B"⟩,
        ⟨1, 12, "away_team", "B"⟩, ⟨1, 12, "home_team", "C"⟩,
        ⟨2, 13, "away_team", "C"⟩] : List TidyRow), q.team = "A" ∧ q.date = d) ∧
      (∀ q ∈ ([⟨0, 10, "away_team", "A"⟩, ⟨0, 10, "home_team", "B"⟩,
        ⟨1, 12, "away_team", "B"⟩, ⟨1, 12, "home_team", "C"⟩,
        ⟨2, 13, "away_team", "C"⟩] : List TidyRow), q.team = "A" → q.date ≤ d)) :=
  ⟨by decide, by decide,
    rest_days_gap gsEx
      [⟨0, 10, "away_team", "A"⟩, ⟨0, 10, "home_team", "B"⟩,
       ⟨1, 12, "away_team", "B"⟩, ⟨1, 12, "home_team", "C"⟩,
       ⟨2, 13, "away_team", "C"⟩]
      [⟨3, 15, "away_team", "A"⟩, ⟨3, 15, "home_team", "B"⟩]
      ⟨2, 13, "home_team", "A"⟩ (by decide) (by decide) (by decide)⟩

/-- C2: melting produces, for every game, exactly two rows carrying its
`game_id` and date — an `away_team`-tagged row with the away team's name and
a `home_team`-tagged row with the home team's name — and the long table has
twice as many rows as there are games. -/
theorem melt_two_rows_per_game (games : List Game) (g : Game)
    (hnd : (games.map Game.game_id).Nodup) (hg : g ∈ games) :
    List.Perm ((tidy games).filter fun r => r.game_id == g.game_id)
      [⟨g.game_id, g.date, "away_team", g.away_team⟩,
       ⟨g.game_id, g.date, "home_team", g.home_team⟩] ∧
    (tidy games).length = 2 * games.length := by
  refine ⟨tidy_filter_id hnd hg, ?_⟩
  rw [tidy, List.length_insertionSort]
  unfold meltTeams
  rw [List.length_append, List.length_map, List.length_map]
  omega

/-- Witness for C2 at a concrete season: game 1 yields exactly its away row
and its home row. -/
theorem melt_two_rows_per_game_witness :
    ((gsEx.map Game.game_id).Nodup ∧ (⟨1, 12, "B", 105, "C", 95⟩ : Game) ∈ gsEx) ∧
    (List.Perm ((tidy gsEx).filter fun r => r.game_id == 1)
      [⟨1, 12, "away_team", "B"⟩, ⟨1, 12, "home_team", "C"⟩] ∧
    (tidy gsEx).length = 2 * gsEx.length) :=
  ⟨⟨by decide, by decide⟩,
    melt_two_rows_per_game gsEx ⟨1, 12, "B", 105, "C", 95⟩ (by decide) (by decide)⟩

/-- C3 fails as stated: in a one-game season the pivoted table has no row at
all for the game — both teams are playing their first game of the season,
both rest values are missing, and `pivot_table` drops the all-missing
`(game_id, date)` index entry — so there is a game with no pivot row. -/
theorem pivot_drops_all_missing_games : gs1.length = 1 ∧ by_game gs1 = [] :=
  ⟨rfl, rfl⟩

/-- C3 (amended): for every game with at least one non-missing rest value the
pivoted table has exactly one row, whose `away_rest` and `home_rest` equal
the rest value of the game's away team and home team respectively (missing
where that team's rest is missing); a game both of whose rest values are
missing has no pivot row. -/
theorem pivot_round_trip (games : List Game) (g : Game)
    (hnd : (games.map Game.game_id).Nodup) (hg : g ∈ games) :
    ∃ a h : Option Int,
      keyRests games g.game_id g.date "away_team" = [a] ∧
      keyRests games g.game_id g.date "home_team" = [h] ∧
      (by_game games).filter (fun r => r.game_id == g.game_id) =
        (if a.isNone && h.isNone then [] else
          [⟨g.game_id, g.date, a.map (fun n => (n : ℚ)),
            h.map (fun n => (n : ℚ))⟩]) := by
  obtain ⟨oa, hfa⟩ := tidyRest_filter_key (tidy_filter_key_away hnd hg)
  obtain ⟨oh, hfh⟩ := tidyRest_filter_key (tidy_filter_key_home hnd hg)
  have hka := keyRests_eq hfa
  have hkh := keyRests_eq hfh
  refine ⟨oa, oh, hka, hkh, ?_⟩
  rw [by_game_filter hnd hg]
  unfold byGameCell
  simp only
  rw [hka, hkh]
  cases oa <;> cases oh <;>
    simp [meanOpt, Option.toList]

/-- Witness for C3 (amended) at a concrete season: game 1's away team has
rest 1 and its home team is playing its first game, so the pivot row is
`(1, 12, some 1, none)`. -/
theorem pivot_round_trip_witness :
    ((gsEx.map Game.game_id).Nodup ∧ (⟨1, 12, "B", 105, "C", 95⟩ : Game) ∈ gsEx) ∧
    (∃ a h : Option Int,
      keyRests gsEx 1 12 "away_team" = [a] ∧
      keyRests gsEx 1 12 "home_team" = [h] ∧
      (by_game gsEx).filter (fun r => r.game_id == 1) =
        (if a.isNone && h.isNone then [] else
          [⟨1, 12, a.map (fun n => (n : ℚ)), h.map (fun n => (n : ℚ))⟩])) :=
  ⟨⟨by decide, by decide⟩,
    pivot_round_trip gsEx ⟨1, 12, "B", 105, "C", 95⟩ (by decide) (by decide)⟩

/-- C8: joining the pivoted rest columns back onto the games table only adds
the rest columns — the row count is unchanged and every game keeps exactly
its original teams and points, its row carrying just two new rest fields. -/
theorem concat_preserves_games (games : List Game) (g : Game)
    (hnd : (games.map Game.game_id).Nodup) (hg : g ∈ games) :
    (df games).length = games.length ∧
    ∃ ar hr : Option ℚ,
      (df games).filter (fun r => r.game_id == g.game_id) =
        [⟨g.game_id, g.date, g.away_team, g.away_points, g.home_team,
          g.home_points, ar, hr⟩] := by
  refine ⟨by rw [df, List.length_map], ?_⟩
  rcases hrow : dfRowOf games g with ⟨a1, a2, a3, a4, a5, a6, a7, a8⟩
  have hfields := dfRowOf_fields games g
  rw [hrow] at hfields
  dsimp only at hfields
  obtain ⟨e1, e2, e3, e4, e5, e6⟩ := hfields
  refine ⟨a7, a8, ?_⟩
  rw [df_filter hnd hg, hrow, e1, e2, e3, e4, e5, e6]

/-- Witness for C8 at a concrete season: game 1's row keeps its teams and
points and gains only the two rest columns. -/
theorem concat_preserves_games_witness :
    ((gsEx.map Game.game_id).Nodup ∧ (⟨1, 12, "B", 105, "C", 95⟩ : Game) ∈ gsEx) ∧
    ((df gsEx).length = gsEx.length ∧
    ∃ ar hr : Option ℚ,
      (df gsEx).filter (fun r => r.game_id == 1) =
        [⟨1, 12, "B", 105, "C", 95, ar, hr⟩]) :=
  ⟨⟨by decide, by decide⟩,
    concat_preserves_games gsEx ⟨1, 12, "B", 105, "C", 95⟩ (by decide) (by decide)⟩

/-- C5: the binary `home_win` outcome of a game's row in the model table is
true exactly when the home team's points are strictly greater than the away
team's. -/
theorem home_win_iff_points (games : List Game) (g : Game)
    (hnd : (games.map Game.game_id).Nodup) (hg : g ∈ games) :
    ∃ ar hr : Option ℚ,
      (dfW games).filter (fun r => r.game_id == g.game_id) =
        [⟨⟨g.game_id, g.date, g.away_team, g.away_points, g.home_team,
          g.home_points, ar, hr⟩, decide (g.away_points < g.home_points)⟩] := by
  have h1 : (dfW games).filter (fun r => r.game_id == g.game_id)
      = ((df games).filter fun r => r.game_id == g.game_id).map
          fun r => ⟨r, decide (r.home_points > r.away_points)⟩ := by
    unfold dfW
    rw [List.filter_map]
    rfl
  rcases hrow : dfRowOf games g with ⟨a1, a2, a3, a4, a5, a6, a7, a8⟩
  have hfields := dfRowOf_fields games g
  rw [hrow] at hfields
  dsimp only at hfields
  obtain ⟨e1, e2, e3, e4, e5, e6⟩ := hfields
  refine ⟨a7, a8, ?_⟩
  rw [h1, df_filter hnd hg, hrow]
  dsimp only [List.map_cons, List.map_nil]
  rw [e1, e2, e3, e4, e5, e6]

/-- Witness for C5 at a concrete season: in game 1 the away team scored 105
against 95, so the game's `home_win` is `decide (105 < 95)`, i.e. false. -/
theorem home_win_iff_points_witness :
    ((gsEx.map Game.game_id).Nodup ∧ (⟨1, 12, "B", 105, "C", 95⟩ : Game) ∈ gsEx) ∧
    (∃ ar hr : Option ℚ,
      (dfW gsEx).filter (fun r => r.game_id == 1) =
        [⟨⟨1, 12, "B", 105, "C", 95, ar, hr⟩, decide ((105 : Int) < 95)⟩]) :=
  ⟨⟨by decide, by decide⟩,
    home_win_iff_points gsEx ⟨1, 12, "B", 105, "C", 95⟩ (by decide) (by decide)⟩

/-- C10: the rest value of a team's first game of the season is missing, not
zero; the per-game table lacks the corresponding `away_rest`/`home_rest`
entry for every game whose away/home team plays its first game; and such a
game contributes nothing to the rest-difference series and is excluded from
the model's complete-case fit. -/
theorem first_game_rest_missing (games : List Game) (g : Game)
    (r : TidyRow) (pre suf : List TidyRow)
    (hnd : (games.map Game.game_id).Nodup) (hg : g ∈ games)
    (hr : r = awayRow g ∨ r = homeRow g)
    (hsplit : tidy games = pre ++ r :: suf)
    (hfirst : pre.filter (fun p => p.team == r.team) = []) :
    (r, (none : Option Int)) ∈ tidyRest games ∧
    (∀ x ∈ df games, x.game_id = g.game_id →
      (r = awayRow g → x.away_rest = none) ∧
      (r = homeRow g → x.home_rest = none) ∧ restDiff x = none) ∧
    (∀ x ∈ modelRows games, x.game_id ≠ g.game_id) := by
  have hrest : restOfRow pre r = none := restOfRow_of_first hfirst
  have hmem : (r, (none : Option Int)) ∈ tidyRest games := by
    rw [tidyRest_split hsplit, hrest]
    exact List.mem_append_right _ (List.mem_cons_self _ _)
  have hkeyrest : (r = awayRow g → (dfRowOf games g).away_rest = none) ∧
      (r = homeRow g → (dfRowOf games g).home_rest = none) := by
    constructor
    · intro hra
      obtain ⟨o, hfo⟩ := tidyRest_filter_key (tidy_filter_key_away hnd hg)
      have hro : (r, (none : Option Int)) ∈
          (tidyRest games).filter fun x =>
            keyP g.game_id g.date "away_team" x.1 := by
        refine List.mem_filter.mpr ⟨hmem, ?_⟩
        subst hra
        simp [keyP, awayRow]
      rw [hfo] at hro
      have heq := List.mem_singleton.mp hro
      have ho : o = none := by
        have := congrArg Prod.snd heq
        simpa using this.symm
      rw [(dfRowOf_rests hnd hg).1, keyRests_eq hfo, ho]
      simp [meanOpt]
    · intro hrh
      obtain ⟨o, hfo⟩ := tidyRest_filter_key (tidy_filter_key_home hnd hg)
      have hro : (r, (none : Option Int)) ∈
          (tidyRest games).filter fun x =>
            keyP g.game_id g.date "home_team" x.1 := by
        refine List.mem_filter.mpr ⟨hmem, ?_⟩
        subst hrh
        simp [keyP, homeRow]
      rw [hfo] at hro
      have heq := List.mem_singleton.mp hro
      have ho : o = none := by
        have := congrArg Prod.snd heq
        simpa using this.symm
      rw [(dfRowOf_rests hnd hg).2, keyRests_eq hfo, ho]
      simp [meanOpt]
  have hxeq : ∀ x ∈ df games, x.game_id = g.game_id → x = dfRowOf games g := by
    intro x hx heq
    rcases List.mem_map.mp hx with ⟨g2, hg2, rfl⟩
    have hgg : g2 = g := game_id_inj hnd hg2 hg
      (by rw [← (dfRowOf_fields games g2).1]; exact heq)
    rw [hgg]
  refine ⟨hmem, ?_, ?_⟩
  · intro x hx heq
    have hxg := hxeq x hx heq
    subst hxg
    refine ⟨hkeyrest.1, hkeyrest.2, ?_⟩
    rcases hr with hra | hrh
    · have h7 := hkeyrest.1 hra
      cases hh : (dfRowOf games g).home_rest <;> simp [restDiff, h7, hh]
    · have h7 := hkeyrest.2 hrh
      cases ha : (dfRowOf games g).away_rest <;> simp [restDiff, h7, ha]
  · intro x hx heq
    rcases List.mem_filter.mp hx with ⟨hxd, hcond⟩
    rcases List.mem_map.mp hxd with ⟨row, hrowmem, rfl⟩
    dsimp only at heq hcond
    have hroweq := hxeq row hrowmem heq
    subst hroweq
    rcases hr with hra | hrh
    · rw [hkeyrest.1 hra] at hcond
      simp at hcond
    · rw [hkeyrest.2 hrh] at hcond
      simp at hcond

/-- Witness for C10 at a concrete season: game 0's away team A is playing
its first game — its rest is missing, game 0 has no rest entries, and it is
excluded from the rest-difference series and the fit. -/
theorem first_game_rest_missing_witness :
    ((gsEx.map Game.game_id).Nodup ∧ (⟨0, 10, "A", 90, "B", 100⟩ : Game) ∈ gsEx ∧
     ((⟨0, 10, "away_team", "A"⟩ : TidyRow) = awayRow ⟨0, 10, "A", 90, "B", 100⟩ ∨
      (⟨0, 10, "away_team", "A"⟩ : TidyRow) = homeRow ⟨0, 10, "A", 90, "B", 100⟩) ∧
     tidy gsEx = [] ++ ⟨0, 10, "away_team", "A"⟩ ::
       [⟨0, 10, "home_team", "B"⟩, ⟨1, 12, "away_team", "B"⟩,
        ⟨1, 12, "home_team", "C"⟩, ⟨2, 13, "away_team", "C"⟩,
        ⟨2, 13, "home_team", "A"⟩, ⟨3, 15, "away_team", "A"⟩,
        ⟨3, 15, "home_team", "B"⟩] ∧
     ([] : List TidyRow).filter
       (fun p => p.team == (⟨0, 10, "away_team", "A"⟩ : TidyRow).team) = []) ∧
    ((⟨0, 10, "away_team", "A"⟩, (none : Option Int)) ∈ tidyRest gsEx ∧
    (∀ x ∈ df gsEx, x.game_id = 0 →
      ((⟨0, 10, "away_team", "A"⟩ : TidyRow) = awayRow ⟨0, 10, "A", 90, "B", 100⟩ →
        x.away_rest = none) ∧
      ((⟨0, 10, "away_team", "A"⟩ : TidyRow) = homeRow ⟨0, 10, "A", 90, "B", 100⟩ →
        x.home_rest = none) ∧ restDiff x = none) ∧
    (∀ x ∈ modelRows gsEx, x.game_id ≠ 0)) :=
  ⟨⟨by decide, by decide, Or.inl (by decide), by decide, by decide⟩,
    first_game_rest_missing gsEx ⟨0, 10, "A", 90, "B", 100⟩
      ⟨0, 10, "away_team", "A"⟩ []
      [⟨0, 10, "home_team", "B"⟩, ⟨1, 12, "away_team", "B"⟩,
       ⟨1, 12, "home_team", "C"⟩, ⟨2, 13, "away_team", "C"⟩,
       ⟨2, 13, "home_team", "A"⟩, ⟨3, 15, "away_team", "A"⟩,
       ⟨3, 15, "home_team", "B"⟩]
      (by decide) (by decide) (Or.inl (by decide)) (by decide) (by decide)⟩

/-- The melted outcome table is two blocks of per-game rows: the home rows
and the away rows, each computed from the game's `df` row. -/
theorem gamesWithWin_eq (games : List Game) :
    gamesWithWin games =
      games.map (homePairF games) ++ games.map (awayPairF games) := by
  unfold gamesWithWin gamesLong dfW df homePairF awayPairF
  simp only [List.map_append, List.map_map]
  rfl

/-- C6: in the melted outcome table a row's `win` flag is true iff the game
was a home win and the row is the home row, or not a home win and the row is
the away row: each game contributes its home row flagged with `home_win` and
its away row flagged with its negation, so the flag marks exactly the
winning team. -/
theorem win_marks_winner (games : List Game) (g : Game)
    (hnd : (games.map Game.game_id).Nodup) (hg : g ∈ games) :
    ((gamesWithWin games).filter fun p => p.1.game_id == g.game_id) =
      [(⟨g.game_id, g.date, decide (g.away_points < g.home_points),
          "home_team", g.home_team⟩, decide (g.away_points < g.home_points)),
       (⟨g.game_id, g.date, decide (g.away_points < g.home_points),
          "away_team", g.away_team⟩, !decide (g.away_points < g.home_points))] := by
  rw [gamesWithWin_eq, List.filter_append]
  have hhome := filter_map_unique (homePairF games)
    (fun p => p.1.game_id == g.game_id) hnd hg
    (fun x _ => by
      show ((dfRowOf games x).game_id == g.game_id) = _
      rw [(dfRowOf_fields games x).1])
  have haway := filter_map_unique (awayPairF games)
    (fun p => p.1.game_id == g.game_id) hnd hg
    (fun x _ => by
      show ((dfRowOf games x).game_id == g.game_id) = _
      rw [(dfRowOf_fields games x).1])
  rw [hhome, haway]
  obtain ⟨f1, f2, f3, f4, f5, f6⟩ := dfRowOf_fields games g
  simp only [homePairF, awayPairF, meltHome, meltAway, winFlag]
  rw [f1, f2, f3, f4, f5, f6]
  simp

/-- Witness for C6 at a concrete season: game 1 was won by its away team B,
so its home row carries `win = false` and its away row `win = true`. -/
theorem win_marks_winner_witness :
    ((gsEx.map Game.game_id).Nodup ∧ (⟨1, 12, "B", 105, "C", 95⟩ : Game) ∈ gsEx) ∧
    ((gamesWithWin gsEx).filter fun p => p.1.game_id == 1) =
      [(⟨1, 12, decide ((105 : Int) < 95), "home_team", "C"⟩,
          decide ((105 : Int) < 95)),
       (⟨1, 12, decide ((105 : Int) < 95), "away_team", "B"⟩,
          !decide ((105 : Int) < 95))] :=
  ⟨⟨by decide, by decide⟩,
    win_marks_winner gsEx ⟨1, 12, "B", 105, "C", 95⟩ (by decide) (by decide)⟩

/-! ## Counting the win aggregates -/

theorem length_filter_map_congr {α β : Type} (f : α → β) (q : β → Bool)
    (p : α → Bool) (l : List α) (h : ∀ x ∈ l, q (f x) = p x) :
    ((l.map f).filter q).length = (l.filter p).length := by
  rw [List.filter_map, List.length_map]
  exact congrArg List.length (List.filter_congr h)

theorem filter_map_nil_of_false {α β : Type} (f : α → β) (q : β → Bool)
    (l : List α) (h : ∀ x ∈ l, q (f x) = false) :
    (l.map f).filter q = [] := by
  rw [List.filter_eq_nil_iff]
  intro b hb
  rcases List.mem_map.mp hb with ⟨x, hx, rfl⟩
  rw [h x hx]
  exact Bool.false_ne_true

theorem boolSum (l : List (GameTeamRow × Bool)) :
    ((l.map fun p => if p.2 then (1 : ℚ) else 0).sum) =
      ((l.filter fun p => p.2).length : ℚ) := by
  induction l with
  | nil => simp
  | cons a t ih =>
    rcases ha : a.2 with _ | _ <;>
      simp [List.filter_cons, ha, ih, add_comm]

/-- The four aggregates of the `(team, home_or_away)` groups, counted off the
original games table. -/
theorem group_counts (games : List Game) (t : String) :
    n_games games t "home_team" =
      (games.filter fun g => g.home_team == t).length ∧
    n_wins games t "home_team" = (games.filter fun g =>
      g.home_team == t && decide (g.away_points < g.home_points)).length ∧
    n_games games t "away_team" =
      (games.filter fun g => g.away_team == t).length ∧
    n_wins games t "away_team" = (games.filter fun g =>
      g.away_team == t && !decide (g.away_points < g.home_points)).length := by
  have hmelt := gamesWithWin_eq games
  refine ⟨?_, ?_, ?_, ?_⟩
  · unfold n_games groupRows
    rw [hmelt, List.filter_append, List.length_append,
      length_filter_map_congr (homePairF games) _
        (fun x => x.home_team == t) _ (fun x _ => by
          obtain ⟨f1, f2, f3, f4, f5, f6⟩ := dfRowOf_fields games x
          simp [homePairF, meltHome, f5]),
      length_filter_map_congr (awayPairF games) _
        (fun _ => false) _ (fun x _ => by
          simp [awayPairF, meltAway])]
    simp
  · unfold n_wins groupRows
    rw [List.filter_filter, hmelt, List.filter_append, List.length_append,
      length_filter_map_congr (homePairF games) _
        (fun x => x.home_team == t && decide (x.away_points < x.home_points)) _
        (fun x _ => by
          obtain ⟨f1, f2, f3, f4, f5, f6⟩ := dfRowOf_fields games x
          simp [homePairF, meltHome, winFlag, f4, f5, f6, Bool.and_comm]),
      length_filter_map_congr (awayPairF games) _
        (fun _ => false) _ (fun x _ => by
          simp [awayPairF, meltAway])]
    simp
  · unfold n_games groupRows
    rw [hmelt, List.filter_append, List.length_append,
      length_filter_map_congr (homePairF games) _
        (fun _ => false) _ (fun x _ => by
          simp [homePairF, meltHome]),
      length_filter_map_congr (awayPairF games) _
        (fun x => x.away_team == t) _ (fun x _ => by
          obtain ⟨f1, f2, f3, f4, f5, f6⟩ := dfRowOf_fields games x
          simp [awayPairF, meltAway, f3])]
    simp
  · unfold n_wins groupRows
    rw [List.filter_filter, hmelt, List.filter_append, List.length_append,
      length_filter_map_congr (homePairF games) _
        (fun _ => false) _ (fun x _ => by
          simp [homePairF, meltHome, winFlag]),
      length_filter_map_congr (awayPairF games) _
        (fun x => x.away_team == t && !decide (x.away_points < x.home_points)) _
        (fun x _ => by
          obtain ⟨f1, f2, f3, f4, f5, f6⟩ := dfRowOf_fields games x
          simp [awayPairF, meltAway, winFlag, f3, f4, f6, Bool.and_comm])]
    simp

/-- C7: every `(team, home_or_away)` group of the win aggregation has
`n_games` equal to the number of games the team played in that role,
`n_wins` equal to the number of those games it won, and `win_pct` equal to
`n_wins / n_games`, whence `n_wins ≤ n_games` and `0 ≤ win_pct ≤ 1`. -/
theorem wins_aggregates (games : List Game) (t v : String)
    (hv : v = "home_team" ∨ v = "away_team")
    (hne : n_games games t v ≠ 0) :
    n_games games t v = roleGames games t v ∧
    n_wins games t v = roleWins games t v ∧
    n_wins games t v ≤ n_games games t v ∧
    win_pct games t v = (n_wins games t v : ℚ) / (n_games games t v : ℚ) ∧
    0 ≤ win_pct games t v ∧ win_pct games t v ≤ 1 := by
  obtain ⟨hg1, hw1, hg2, hw2⟩ := group_counts games t
  have hle : n_wins games t v ≤ n_games games t v := by
    unfold n_wins n_games
    exact List.length_filter_le _ _
  have hpct : win_pct games t v =
      (n_wins games t v : ℚ) / (n_games games t v : ℚ) := by
    unfold win_pct
    rw [boolSum]
    rfl
  have h0 : (0 : ℚ) ≤ win_pct games t v := by
    rw [hpct]
    positivity
  have h1 : win_pct games t v ≤ 1 := by
    rw [hpct, div_le_one (by
      have := Nat.pos_of_ne_zero hne
      exact_mod_cast this)]
    exact_mod_cast hle
  refine ⟨?_, ?_, hle, hpct, h0, h1⟩
  · rcases hv with rfl | rfl
    · rw [hg1]
      simp [roleGames]
    · rw [hg2]
      simp [roleGames]
  · rcases hv with rfl | rfl
    · rw [hw1]
      simp [roleWins]
    · rw [hw2]
      simp [roleWins]

/-- Witness for C7 at a concrete season: team B at home played 2 games and
won 1, so its group has `n_games = 2`, `n_wins = 1`, `win_pct = 1/2`. -/
theorem wins_aggregates_witness :
    (("home_team" = "home_team" ∨ ("home_team" : String) = "away_team") ∧
      n_games gsEx "B" "home_team" ≠ 0) ∧
    (n_games gsEx "B" "home_team" = roleGames gsEx "B" "home_team" ∧
    n_wins gsEx "B" "home_team" = roleWins gsEx "B" "home_team" ∧
    n_wins gsEx "B" "home_team" ≤ n_games gsEx "B" "home_team" ∧
    win_pct gsEx "B" "home_team" =
      (n_wins gsEx "B" "home_team" : ℚ) / (n_games gsEx "B" "home_team" : ℚ) ∧
    0 ≤ win_pct gsEx "B" "home_team" ∧ win_pct gsEx "B" "home_team" ≤ 1) :=
  ⟨⟨Or.inl rfl, by decide⟩,
    wins_aggregates gsEx "B" "home_team" (Or.inl rfl) (by decide)⟩

/-- C4: for every game, the strength covariates are the teams' overall win
percentages: `home_strength` is the home team's total wins (home and away
combined) divided by its total games played, and `away_strength` likewise
for the away team. -/
theorem strength_is_overall_win_percent (games : List Game) (g : Game)
    (hg : g ∈ games) :
    dfRowOf games g ∈ df games ∧
    home_strength games (dfRowOf games g) =
      (total_wins games g.home_team : ℚ) / (total_games games g.home_team : ℚ) ∧
    away_strength games (dfRowOf games g) =
      (total_wins games g.away_team : ℚ) / (total_games games g.away_team : ℚ) := by
  obtain ⟨f1, f2, f3, f4, f5, f6⟩ := dfRowOf_fields games g
  refine ⟨List.mem_map.mpr ⟨g, hg, rfl⟩, ?_, ?_⟩
  · unfold home_strength win_percent
    rw [f5]
    obtain ⟨hg1, hw1, hg2, hw2⟩ := group_counts games g.home_team
    rw [hg1, hw1, hg2, hw2]
    unfold total_wins total_games roleGames roleWins
    simp
  · unfold away_strength win_percent
    rw [f3]
    obtain ⟨hg1, hw1, hg2, hw2⟩ := group_counts games g.away_team
    rw [hg1, hw1, hg2, hw2]
    unfold total_wins total_games roleGames roleWins
    simp

/-- Witness for C4 at a concrete season: game 0's home team B won 2 of its 3
games, so the row's `home_strength` is 2/3. -/
theorem strength_is_overall_win_percent_witness :
    (⟨0, 10, "A", 90, "B", 100⟩ : Game) ∈ gsEx ∧
    (dfRowOf gsEx ⟨0, 10, "A", 90, "B", 100⟩ ∈ df gsEx ∧
    home_strength gsEx (dfRowOf gsEx ⟨0, 10, "A", 90, "B", 100⟩) =
      (total_wins gsEx "B" : ℚ) / (total_games gsEx "B" : ℚ) ∧
    away_strength gsEx (dfRowOf gsEx ⟨0, 10, "A", 90, "B", 100⟩) =
      (total_wins gsEx "A" : ℚ) / (total_games gsEx "A" : ℚ)) :=
  ⟨by decide,
    strength_is_overall_win_percent gsEx ⟨0, 10, "A", 90, "B", 100⟩ (by decide)⟩

/-! ## The loader -/

theorem parseAll_eq_filterMap :
    ∀ (l : List (Nat × RawRow)), (∀ x ∈ l, (loadRow x.1 x.2).isSome) →
      parseAll l = some (l.filterMap fun p => loadRow p.1 p.2) := by
  intro l
  induction l with
  | nil => intro _; rfl
  | cons a t ih =>
    intro h
    rcases Option.isSome_iff_exists.mp (h a (List.mem_cons_self a t)) with ⟨b, hb⟩
    have iht := ih fun x hx => h x (List.mem_cons_of_mem _ hx)
    simp [parseAll, hb, iht, List.filterMap_cons]

theorem pairwise_zip_left {α β : Type} {R : α → α → Prop} :
    ∀ (l₁ : List α) (l₂ : List β), l₁.Pairwise R →
      (l₁.zip l₂).Pairwise fun p q => R p.1 q.1
  | [], _, _ => by simp
  | _ :: _, [], _ => by simp
  | a :: t₁, b :: t₂, h => by
    rw [List.zip_cons_cons]
    refine List.Pairwise.cons (fun q hq => ?_)
      (pairwise_zip_left t₁ t₂ (List.Pairwise.of_cons h))
    exact List.rel_of_pairwise_cons h (List.of_mem_zip hq).1

theorem enum_pairwise (l : List RawRow) :
    l.enum.Pairwise fun p q => p.1 < q.1 := by
  rw [List.enum_eq_zip_range]
  exact pairwise_zip_left _ _ (List.pairwise_lt_range _)

theorem loadRow_gameId {i : Nat} {r : RawRow} {row : LoadedRow}
    (h : loadRow i r = some row) : row.game_id = i := by
  unfold loadRow at h
  cases hd : r.date with
  | none =>
    rw [hd] at h
    cases h
    rfl
  | some s =>
    rw [hd] at h
    rcases Option.map_eq_some'.mp h with ⟨d, _, rfl⟩
    rfl

/-- C9: the loader drops the rows with fewer than 4 non-null cells, keeps
only the five columns of interest with each date string parsed by the
`'%a, %b %d, %Y'` format, labels each surviving row with its original CSV
position as the synthetic `game_id` index level, and returns the table
sorted by the `(game_id, date)` index (the `game_id` level is strictly
increasing). -/
theorem load_characterization (raw : List RawRow)
    (hp : ∀ p ∈ raw.enum.filter (fun p => 4 ≤ nonNullCount p.2),
      (loadRow p.1 p.2).isSome) :
    load raw = some (keptRows raw) ∧
    List.Pairwise (fun a b : LoadedRow => a.game_id < b.game_id) (keptRows raw) ∧
    ∀ row : LoadedRow, row ∈ keptRows raw ↔
      ∃ p ∈ raw.enum, 4 ≤ nonNullCount p.2 ∧ loadRow p.1 p.2 = some row := by
  have hpair : List.Pairwise (fun a b : LoadedRow => a.game_id < b.game_id)
      (keptRows raw) := by
    unfold keptRows
    rw [List.pairwise_filterMap]
    refine ((enum_pairwise raw).filter _).imp ?_
    intro a b h x hx y hy
    rw [loadRow_gameId (Option.mem_def.mp hx), loadRow_gameId (Option.mem_def.mp hy)]
    exact h
  have hsorted : List.Sorted loadedLE (keptRows raw) :=
    hpair.imp fun h => Or.inl h
  refine ⟨?_, hpair, ?_⟩
  · unfold load
    rw [parseAll_eq_filterMap _ hp]
    exact congrArg some hsorted.insertionSort_eq
  · intro row
    unfold keptRows
    simp only [List.mem_filterMap, List.mem_filter, decide_eq_true_eq]
    constructor
    · rintro ⟨p, ⟨hp1, hp2⟩, hp3⟩
      exact ⟨p, hp1, hp2, hp3⟩
    · rintro ⟨p, hp1, hp2, hp3⟩
      exact ⟨p, ⟨hp1, hp2⟩, hp3⟩

/-- Witness for C9 at three concrete CSV rows: the repeated-header row (one
non-null cell) is dropped, the two game rows keep their positions 0 and 2 as
`game_id` and their dates parse. -/
theorem load_characterization_witness :
    (∀ p ∈ rawEx.enum.filter (fun p => 4 ≤ nonNullCount p.2),
      (loadRow p.1 p.2).isSome) ∧
    (load rawEx = some (keptRows rawEx) ∧
    List.Pairwise (fun a b : LoadedRow => a.game_id < b.game_id) (keptRows rawEx) ∧
    ∀ row : LoadedRow, row ∈ keptRows rawEx ↔
      ∃ p ∈ rawEx.enum, 4 ≤ nonNullCount p.2 ∧ loadRow p.1 p.2 = some row) :=
  ⟨by decide, load_characterization rawEx (by decide)⟩

end TidySpec
